import Mathlib

/-!
Shallow embedding of the per-frame simulation core (`src/systems.rs`) of a
top-down vehicle combat game, together with theorems checking its natural
language specification.

Modelling conventions:
- `f64` arithmetic is modelled by the real numbers `ℝ` (rounding is out of
  scope); `rem_euclid` and vek's `clamped` are spelled out explicitly.
- The entity store is modelled by explicit lists of per-entity component
  records; entity ids are natural numbers.
- The random source (`gs.rng`) is modelled by an explicit stream
  `rng : ℕ → ℝ` together with an index that advances by one per sample;
  distribution facts (for example that `gen_range(-1.0, 1.0)` yields a value
  in `[-1, 1)`) become hypotheses on the stream.
- Types that the core only declares elsewhere (`Input`, the map interface,
  the cvar accessors) are modelled from the specification's description of
  their interfaces; all system logic is translated from `systems.rs`.
-/

noncomputable section

/-- 2D vector over the reals, modelling `Vec2f = vek::Vec2<f64>`. -/
@[ext]
structure Vec2f where
  x : ℝ
  y : ℝ

instance : Zero Vec2f := ⟨⟨0, 0⟩⟩

instance : Add Vec2f := ⟨fun a b => ⟨a.x + b.x, a.y + b.y⟩⟩

instance : Sub Vec2f := ⟨fun a b => ⟨a.x - b.x, a.y - b.y⟩⟩

instance : Neg Vec2f := ⟨fun a => ⟨-a.x, -a.y⟩⟩

instance : SMul ℝ Vec2f := ⟨fun c a => ⟨c * a.x, c * a.y⟩⟩

/-- vek `magnitude_squared`. -/
def Vec2f.magnitude_squared (v : Vec2f) : ℝ := v.x ^ 2 + v.y ^ 2

/-- vek `magnitude`. -/
def Vec2f.magnitude (v : Vec2f) : ℝ := Real.sqrt v.magnitude_squared

/-- vek `try_normalized().unwrap_or_default()`: the zero vector when the
length is zero, the unit vector in the same direction otherwise. -/
def Vec2f.try_normalized_or_zero (v : Vec2f) : Vec2f :=
  if v.magnitude = 0 then 0 else (1 / v.magnitude) • v

/-- vek `rotated_z` (counterclockwise rotation by `theta`). -/
def Vec2f.rotated_z (v : Vec2f) (theta : ℝ) : Vec2f :=
  ⟨v.x * Real.cos theta - v.y * Real.sin theta,
   v.x * Real.sin theta + v.y * Real.cos theta⟩

/-- `F64Ext::to_vec2f`: the unit vector of a heading angle. -/
def toVec2f (angle : ℝ) : Vec2f := ⟨Real.cos angle, Real.sin angle⟩

/-- `VecExt::to_angle`: `self.y.atan2(self.x)`, modelled by the complex
argument of `x + iy`. -/
def Vec2f.to_angle (v : Vec2f) : ℝ := Complex.arg ⟨v.x, v.y⟩

/-- Rust `f64::rem_euclid` on real numbers: `a - b * ⌊a / b⌋`. -/
def remEuclid (a b : ℝ) : ℝ := a - b * ⌊a / b⌋

/-- vek `Clamp::clamped`: `self.max(lower).min(upper)`. -/
def clampR (v lo hi : ℝ) : ℝ := min (max v lo) hi

/-- Modelled from the spec: the input snapshot type (its declaration,
`game_state.rs`, is not among the sources).  Named boolean buttons plus the
combined left/right and forward/back axes that `Input::right_left()` and
`Input::up_down()` return. -/
structure Input where
  fire : Bool
  self_destruct : Bool
  turret_left : Bool
  turret_right : Bool
  prev_weapon : Bool
  next_weapon : Bool
  right_left : ℝ
  up_down : ℝ

/-- `EMPTY_INPUT`: the all-neutral input record. -/
def EMPTY_INPUT : Input := ⟨false, false, false, false, false, false, 0, 0⟩

/-- The weapon archetypes, in the declaration order of `components.rs`
implied by `systems.rs` (`Mg`, `Rail`, `Cb`, `Rockets`, `Hm`, `Gm`, `Bfg`). -/
inductive Weapon where
  | Mg
  | Rail
  | Cb
  | Rockets
  | Hm
  | Gm
  | Bfg
  deriving DecidableEq

/-- `WEAPS_CNT`: the number of weapon archetypes. -/
def WEAPS_CNT : ℕ := 7

/-- The discriminant of a weapon archetype (`vehicle.cur_weapon as u8`). -/
def Weapon.idx : Weapon → ℕ
  | .Mg => 0
  | .Rail => 1
  | .Cb => 2
  | .Rockets => 3
  | .Hm => 4
  | .Gm => 5
  | .Bfg => 6

/-- `Weapon::n(..).unwrap()` as used on values reduced mod `WEAPS_CNT`. -/
def weaponOfNat (n : ℕ) : Weapon :=
  match n % 7 with
  | 0 => .Mg
  | 1 => .Rail
  | 2 => .Cb
  | 3 => .Rockets
  | 4 => .Hm
  | 5 => .Gm
  | _ => .Bfg

/-- The ammo state machine: `Loaded(ready-at timestamp, remaining count)` or
`Reloading(start timestamp, end timestamp)`. -/
inductive Ammo where
  | Loaded (ready_time : ℝ) (count : ℕ)
  | Reloading (start_t : ℝ) (end_t : ℝ)
  deriving Inhabited

/-- `cvars::Hardpoint`: where a weapon is mounted. -/
inductive Hardpoint where
  | Chassis
  | Turret
  deriving DecidableEq

/-- `cvars::MovementStats`: the per-archetype tunables consumed by
`turning` and `accel_decel`. -/
structure MovementStats where
  turn_rate_increase : ℝ
  turn_rate_friction_const : ℝ
  turn_rate_friction_linear : ℝ
  turn_rate_max : ℝ
  turn_effectiveness : ℝ
  accel_forward : ℝ
  friction_const : ℝ
  friction_linear : ℝ
  speed_max : ℝ

/-- Modelled from the spec: the cvar accessors consumed by `systems.rs`
(their declaration, `cvars.rs`, is not among the sources).  Each field is
one read-only accessor. -/
structure Cvars where
  g_self_destruct_explosion1_scale : ℝ
  g_self_destruct_explosion2_scale : ℝ
  g_turret_turn_speed : ℝ
  g_vehicle_movement_stats : ℕ → MovementStats
  g_weapon_movement_stats : MovementStats
  g_weapon_reload_ammo : Weapon → ℕ
  g_weapon_refire : Weapon → ℝ
  g_weapon_reload_time : Weapon → ℝ
  g_hardpoint : ℕ → Weapon → Hardpoint × Vec2f
  g_vehicle_turret_offset_chassis : ℕ → Vec2f
  g_machine_gun_angle_spread : ℝ
  g_machine_gun_speed : ℝ
  g_machine_gun_vehicle_velocity_factor : ℝ
  g_cluster_bomb_count : ℕ
  g_cluster_bomb_speed : ℝ
  g_cluster_bomb_speed_spread_gaussian : Bool
  g_cluster_bomb_speed_spread_forward : ℝ
  g_cluster_bomb_speed_spread_sideways : ℝ
  g_cluster_bomb_vehicle_velocity_factor : ℝ
  g_cluster_bomb_time : ℝ
  g_cluster_bomb_time_spread : ℝ
  g_rockets_speed : ℝ
  g_rockets_vehicle_velocity_factor : ℝ
  g_homing_missile_speed_initial : ℝ
  g_homing_missile_vehicle_velocity_factor : ℝ
  g_guided_missile_speed_initial : ℝ
  g_guided_missile_vehicle_velocity_factor : ℝ
  g_bfg_speed : ℝ
  g_bfg_vehicle_velocity_factor : ℝ
  g_bfg_beam_range : ℝ
  g_weapon_explosion_scale : Weapon → Option ℝ

/-- `game_state::Explosion` as constructed by `Explosion::new`. -/
structure Explosion where
  pos : Vec2f
  scale : ℝ
  time : ℝ
  bfg : Bool

/-- `turning` from `systems.rs`: given the movement stats, current velocity,
heading, turn rate, input and dt, returns the rotated velocity, the updated
turn rate and the new (normalized) heading, in this order. -/
def turning (stats : MovementStats) (vel : Vec2f) (angle turn_rate : ℝ)
    (input : Input) (dt : ℝ) : Vec2f × ℝ × ℝ :=
  let tr_change := input.right_left * stats.turn_rate_increase * dt
  let tr1 := turn_rate + tr_change
  let tr_fric_const := stats.turn_rate_friction_const * dt
  let tr2 := if 0 ≤ tr1 then max (tr1 - tr_fric_const) 0 else min (tr1 + tr_fric_const) 0
  let tr_new := tr2 * (1 - stats.turn_rate_friction_linear) ^ dt
  let tr3 := clampR tr_new (-stats.turn_rate_max) stats.turn_rate_max
  let turn := tr3 * dt
  let vel_rotation := turn * stats.turn_effectiveness
  (vel.rotated_z vel_rotation, tr3, remEuclid (angle + turn) (2 * Real.pi))

/-- First stage of `accel_decel`: forward/back acceleration along the
current heading. -/
def ad_vel1 (stats : MovementStats) (vel : Vec2f) (angle : ℝ) (input : Input)
    (dt : ℝ) : Vec2f :=
  vel + (input.up_down * stats.accel_forward * dt) • toVec2f angle

/-- The `vel_norm` value of `accel_decel` (normalized post-acceleration
velocity, zero vector for zero velocity). -/
def ad_norm (stats : MovementStats) (vel : Vec2f) (angle : ℝ) (input : Input)
    (dt : ℝ) : Vec2f :=
  (ad_vel1 stats vel angle input dt).try_normalized_or_zero

/-- Second stage of `accel_decel`: friction's constant component, which
removes up to `friction_const * dt` of speed and never reverses direction. -/
def ad_vel2 (stats : MovementStats) (vel : Vec2f) (angle : ℝ) (input : Input)
    (dt : ℝ) : Vec2f :=
  ad_vel1 stats vel angle input dt -
    min (stats.friction_const * dt) (ad_vel1 stats vel angle input dt).magnitude •
      ad_norm stats vel angle input dt

/-- Third stage of `accel_decel`: friction's linear component, scaling the
velocity by `(1 - friction_linear) ^ dt`. -/
def ad_vel3 (stats : MovementStats) (vel : Vec2f) (angle : ℝ) (input : Input)
    (dt : ℝ) : Vec2f :=
  ((1 - stats.friction_linear) ^ dt) • ad_vel2 stats vel angle input dt

/-- `accel_decel` from `systems.rs`: acceleration, both friction components
and the speed cap; returns the updated velocity. -/
def accel_decel (stats : MovementStats) (vel : Vec2f) (angle : ℝ)
    (input : Input) (dt : ℝ) : Vec2f :=
  if (ad_vel3 stats vel angle input dt).magnitude_squared > stats.speed_max ^ 2
  then stats.speed_max • ad_norm stats vel angle input dt
  else ad_vel3 stats vel angle input dt

/-- The motion components written back by one `vehicle_movement` iteration. -/
structure MoveOut where
  pos : Vec2f
  vel : Vec2f
  angle : ℝ
  turn_rate : ℝ

/-- The body of the `vehicle_movement` loop for one vehicle.  `collision`
models `map.collision` and `corners` models `hitbox.corners(pos, angle)`
(both live outside the sources; the spec gives their interfaces). -/
def vehicle_movement_one (stats : MovementStats) (collision : Vec2f → Bool)
    (corners : Vec2f → ℝ → List Vec2f) (dt : ℝ) (input : Input)
    (pos vel : Vec2f) (angle turn_rate : ℝ) : MoveOut :=
  let t := turning stats vel angle turn_rate input dt
  let collide1 := (corners pos t.2.2).any collision
  let tr2 := if collide1 then t.2.1 * (-0.5) else t.2.1
  let angle1 := if collide1 then angle else t.2.2
  let vel2 := accel_decel stats t.1 angle1 input dt
  let new_pos := pos + dt • vel2
  let collide2 := (corners new_pos angle1).any collision
  ⟨if collide2 then pos else new_pos,
   if collide2 then (-0.5 : ℝ) • vel2 else vel2,
   angle1, tr2⟩

/-- The components of one vehicle entity matched by the `vehicle_movement`
query (`Vehicle`, `Pos`, `Vel`, `Angle`, `TurnRate`, per-entity `Input`;
only `veh_type` and `destroyed` of `Vehicle` are relevant here). -/
structure MovVeh where
  destroyed : Bool
  veh_type : ℕ
  pos : Vec2f
  vel : Vec2f
  angle : ℝ
  turn_rate : ℝ
  input : Input

/-- One `vehicle_movement` iteration applied to a vehicle record.  Note the
source has no `destroyed` guard in this system. -/
def vehicle_movement_apply (cvars : Cvars) (collision : Vec2f → Bool)
    (corners : Vec2f → ℝ → List Vec2f) (dt : ℝ) (v : MovVeh) : MovVeh :=
  let m := vehicle_movement_one (cvars.g_vehicle_movement_stats v.veh_type)
    collision corners dt v.input v.pos v.vel v.angle v.turn_rate
  { v with pos := m.pos, vel := m.vel, angle := m.angle, turn_rate := m.turn_rate }

/-- The `vehicle_movement` system: the query visits every entity holding all
the queried components, with no filtering. -/
def vehicle_movement (cvars : Cvars) (collision : Vec2f → Bool)
    (corners : Vec2f → ℝ → List Vec2f) (dt : ℝ) (vs : List MovVeh) : List MovVeh :=
  vs.map (vehicle_movement_apply cvars collision corners dt)

/-- The components of a vehicle entity used by `vehicle_logic`, `shooting`
and `self_destruct` (the `Vehicle` component). -/
structure VehFull where
  destroyed : Bool
  veh_type : ℕ
  cur_weapon : Weapon
  turret_angle : ℝ
  ammos : Weapon → Ammo

/-- One `vehicle_logic` iteration: weapon-switch edge detection, turret
turning driven by the shared `gs.input`, and reload completion, in source
order (the reload check reads the possibly-switched current weapon). -/
def vehicle_logic_one (cvars : Cvars) (gsInput gsPrevInput : Input)
    (frame_time dt : ℝ) (v : VehFull) (input : Input) : VehFull :=
  let cw1 := if input.prev_weapon && !gsPrevInput.prev_weapon
    then weaponOfNat ((v.cur_weapon.idx + WEAPS_CNT - 1) % WEAPS_CNT)
    else v.cur_weapon
  let cw2 := if input.next_weapon && !gsPrevInput.next_weapon
    then weaponOfNat ((cw1.idx + 1) % WEAPS_CNT)
    else cw1
  let t1 := if gsInput.turret_left
    then v.turret_angle - cvars.g_turret_turn_speed * dt
    else v.turret_angle
  let t2 := if gsInput.turret_right then t1 + cvars.g_turret_turn_speed * dt else t1
  let ammos' := match v.ammos cw2 with
    | Ammo.Reloading _ end_t =>
      if end_t ≤ frame_time
      then Function.update v.ammos cw2
        (Ammo.Loaded frame_time (cvars.g_weapon_reload_ammo cw2))
      else v.ammos
    | Ammo.Loaded _ _ => v.ammos
  { v with cur_weapon := cw2, turret_angle := t2, ammos := ammos' }

/-- The `vehicle_logic` system over the store. -/
def vehicle_logic_list (cvars : Cvars) (gsInput gsPrevInput : Input)
    (frame_time dt : ℝ) (vs : List (VehFull × Input)) : List VehFull :=
  vs.map fun p => vehicle_logic_one cvars gsInput gsPrevInput frame_time dt p.1 p.2

/-- The `self_destruct` system: the guard reads the shared `gs.input`; each
triggered vehicle is marked destroyed and two explosions are appended. -/
def self_destruct_list (cvars : Cvars) (sd : Bool) (frame_time : ℝ) :
    List (VehFull × Vec2f) → List Explosion → List (VehFull × Vec2f) × List Explosion
  | [], ex => ([], ex)
  | (v, pos) :: rest, ex =>
    if sd && !v.destroyed then
      let ex1 := ex ++
        [⟨pos, cvars.g_self_destruct_explosion1_scale, frame_time, false⟩,
         ⟨pos, cvars.g_self_destruct_explosion2_scale, frame_time, false⟩]
      let r := self_destruct_list cvars sd frame_time rest ex1
      (({ v with destroyed := true }, pos) :: r.1, r.2)
    else
      let r := self_destruct_list cvars sd frame_time rest ex
      ((v, pos) :: r.1, r.2)

/-- The `gs` fields read (never written) by `shooting`. -/
structure ShootCtx where
  frame_time : ℝ
  fire : Bool
  player_entity : ℕ

/-- The `gs` fields written by `shooting`, plus the command-buffer id
allocator (`cmds.push` returns a fresh entity id) and the rng position. -/
structure ShootMut where
  railguns : List (Vec2f × Vec2f)
  guided_missile : Option ℕ
  rngIdx : ℕ
  fresh : ℕ

/-- The component tuples pushed onto the command buffer by `shooting`, one
constructor per weapon branch (marker components are implied by the
constructor). -/
inductive Spawned where
  | mg (pos vel : Vec2f)
  | cb (pos vel : Vec2f) (time : ℝ)
  | rockets (pos vel : Vec2f)
  | hm (pos vel : Vec2f)
  | gm (pos vel : Vec2f) (angle turn_rate : ℝ) (input : Input)
  | bfg (pos vel : Vec2f)

/-- The `for _ in 0..g_cluster_bomb_count` loop of the `Weapon::Cb` branch.
Each iteration samples two speed spreads and one time spread (three rng
draws in either spread mode) and pushes one sub-munition.  Arguments after
the shot geometry: rng index, fresh entity id, remaining iteration count;
returns the pushed entities and the final rng index and id allocator. -/
def cbLoop (cvars : Cvars) (rng : ℕ → ℝ) (frame_time shot_angle : ℝ)
    (veh_vel shot_pos : Vec2f) : ℕ → ℕ → ℕ → List (ℕ × Spawned) × ℕ × ℕ
  | idx, fresh, 0 => ([], idx, fresh)
  | idx, fresh, n + 1 =>
    let spread_forward := if cvars.g_cluster_bomb_speed_spread_gaussian
      then cvars.g_cluster_bomb_speed_spread_forward * rng idx
      else cvars.g_cluster_bomb_speed_spread_forward * rng idx
    let spread_sideways := if cvars.g_cluster_bomb_speed_spread_gaussian
      then cvars.g_cluster_bomb_speed_spread_sideways * rng (idx + 1)
      else cvars.g_cluster_bomb_speed_spread_sideways * rng (idx + 1)
    let shot_vel :=
      (⟨cvars.g_cluster_bomb_speed + spread_forward, spread_sideways⟩ : Vec2f).rotated_z
          shot_angle
        + cvars.g_cluster_bomb_vehicle_velocity_factor • veh_vel
    let time := frame_time + cvars.g_cluster_bomb_time
      + rng (idx + 2) * cvars.g_cluster_bomb_time_spread
    let r := cbLoop cvars rng frame_time shot_angle veh_vel shot_pos (idx + 3) (fresh + 1) n
    ((fresh, Spawned.cb shot_pos shot_vel time) :: r.1, r.2)

/-- Result of processing one vehicle inside `shooting`. -/
structure ShotResult where
  vehicle : VehFull
  spawned : List (ℕ × Spawned)
  ms : ShootMut

/-- The body of the `shooting` loop for one vehicle, translated branch by
branch from `systems.rs`.  `map_cb` models `map.collision_between`. -/
def shooting_one (cvars : Cvars) (map_cb : Vec2f → Vec2f → Option Vec2f)
    (rng : ℕ → ℝ) (ctx : ShootCtx) (ms : ShootMut) (veh_id : ℕ) (v : VehFull)
    (veh_pos veh_vel : Vec2f) (veh_angle : ℝ) : ShotResult :=
  if v.destroyed || !ctx.fire then ⟨v, [], ms⟩ else
  match v.ammos v.cur_weapon with
  | Ammo.Reloading _ _ => ⟨v, [], ms⟩
  | Ammo.Loaded ready_time count =>
    if ctx.frame_time < ready_time then ⟨v, [], ms⟩ else
    let ammo' := if count - 1 = 0
      then Ammo.Reloading ctx.frame_time
        (ctx.frame_time + cvars.g_weapon_reload_time v.cur_weapon)
      else Ammo.Loaded (ctx.frame_time + cvars.g_weapon_refire v.cur_weapon) (count - 1)
    let v' := { v with ammos := Function.update v.ammos v.cur_weapon ammo' }
    let hp := cvars.g_hardpoint v.veh_type v.cur_weapon
    let sa_so : ℝ × Vec2f := match hp.1 with
      | Hardpoint.Chassis => (veh_angle, veh_pos + hp.2.rotated_z veh_angle)
      | Hardpoint.Turret =>
        (veh_angle + v.turret_angle,
         veh_pos + (cvars.g_vehicle_turret_offset_chassis v.veh_type).rotated_z veh_angle
           + hp.2.rotated_z (veh_angle + v.turret_angle))
    let shot_angle := sa_so.1
    let pos := sa_so.2
    match v.cur_weapon with
    | Weapon.Mg =>
      let spread := cvars.g_machine_gun_angle_spread * rng ms.rngIdx
      let shot_vel := (⟨cvars.g_machine_gun_speed, 0⟩ : Vec2f).rotated_z
          (shot_angle + spread)
        + cvars.g_machine_gun_vehicle_velocity_factor • veh_vel
      ⟨v', [(ms.fresh, Spawned.mg pos shot_vel)],
       { ms with rngIdx := ms.rngIdx + 1, fresh := ms.fresh + 1 }⟩
    | Weapon.Rail =>
      let dir := toVec2f shot_angle
      let ray_end := pos + (100000 : ℝ) • dir
      match map_cb pos ray_end with
      | some hit => ⟨v', [], { ms with railguns := ms.railguns ++ [(pos, hit)] }⟩
      | none => ⟨v', [], ms⟩
    | Weapon.Cb =>
      let r := cbLoop cvars rng ctx.frame_time shot_angle veh_vel pos
        ms.rngIdx ms.fresh cvars.g_cluster_bomb_count
      ⟨v', r.1, { ms with rngIdx := r.2.1, fresh := r.2.2 }⟩
    | Weapon.Rockets =>
      let shot_vel := (⟨cvars.g_rockets_speed, 0⟩ : Vec2f).rotated_z shot_angle
        + cvars.g_rockets_vehicle_velocity_factor • veh_vel
      ⟨v', [(ms.fresh, Spawned.rockets pos shot_vel)],
       { ms with fresh := ms.fresh + 1 }⟩
    | Weapon.Hm =>
      let shot_vel := (⟨cvars.g_homing_missile_speed_initial, 0⟩ : Vec2f).rotated_z
          shot_angle
        + cvars.g_homing_missile_vehicle_velocity_factor • veh_vel
      ⟨v', [(ms.fresh, Spawned.hm pos shot_vel)],
       { ms with fresh := ms.fresh + 1 }⟩
    | Weapon.Gm =>
      if veh_id ≠ ctx.player_entity then ⟨v', [], ms⟩
      else
        let shot_vel := (⟨cvars.g_guided_missile_speed_initial, 0⟩ : Vec2f).rotated_z
            shot_angle
          + cvars.g_guided_missile_vehicle_velocity_factor • veh_vel
        ⟨v', [(ms.fresh, Spawned.gm pos shot_vel shot_vel.to_angle 0 EMPTY_INPUT)],
         { ms with guided_missile := some ms.fresh, fresh := ms.fresh + 1 }⟩
    | Weapon.Bfg =>
      let shot_vel := (⟨cvars.g_bfg_speed, 0⟩ : Vec2f).rotated_z shot_angle
        + cvars.g_bfg_vehicle_velocity_factor • veh_vel
      ⟨v', [(ms.fresh, Spawned.bfg pos shot_vel)],
       { ms with fresh := ms.fresh + 1 }⟩

/-- One vehicle entity as matched by the `shooting` query. -/
structure ShootEntry where
  id : ℕ
  veh : VehFull
  pos : Vec2f
  vel : Vec2f
  angle : ℝ

/-- The `shooting` system over the store: processes the vehicles in order,
threading the mutable `gs` fields; all pushes are deferred (the command
buffer is flushed after the loop). -/
def shooting_list (cvars : Cvars) (map_cb : Vec2f → Vec2f → Option Vec2f)
    (rng : ℕ → ℝ) (ctx : ShootCtx) :
    ShootMut → List ShootEntry → List (ℕ × VehFull) × List (ℕ × Spawned) × ShootMut
  | m, [] => ([], [], m)
  | m, e :: rest =>
    let r := shooting_one cvars map_cb rng ctx m e.id e.veh e.pos e.vel e.angle
    let rr := shooting_list cvars map_cb rng ctx r.ms rest
    ((e.id, r.vehicle) :: rr.1, r.spawned ++ rr.2.1, rr.2.2)

/-- The per-vehicle state transition that `shooting` applies to the
`Vehicle` component alone: the guards plus the ammo consumption.  (The
weapon branches never write the vehicle, so the update is independent of
the shared mutable state, the rng and the other vehicles.) -/
def shooting_vehicle_update (cvars : Cvars) (ctx : ShootCtx) (v : VehFull) : VehFull :=
  if v.destroyed || !ctx.fire then v else
  match v.ammos v.cur_weapon with
  | Ammo.Reloading _ _ => v
  | Ammo.Loaded ready_time count =>
    if ctx.frame_time < ready_time then v
    else
      let ammo' := if count - 1 = 0
        then Ammo.Reloading ctx.frame_time
          (ctx.frame_time + cvars.g_weapon_reload_time v.cur_weapon)
        else Ammo.Loaded (ctx.frame_time + cvars.g_weapon_refire v.cur_weapon)
          (count - 1)
      { v with ammos := Function.update v.ammos v.cur_weapon ammo' }

/-- The `gs` fields touched by the projectile systems and by
`remove_projectile`. -/
structure GsFx where
  explosions : List Explosion
  bfg_beams : List (Vec2f × Vec2f)
  guided_missile : Option ℕ
  frame_time : ℝ

/-- `remove_projectile` from `systems.rs`: enqueue the configured explosion
(if any), clear `gs.guided_missile` whenever the weapon is `Gm`, and append
the entity to the deferred-removal list. -/
def remove_projectile (cvars : Cvars) (gs : GsFx) (to_remove : List ℕ)
    (entity : ℕ) (weap : Weapon) (pos : Vec2f) : GsFx × List ℕ :=
  let gs1 := match cvars.g_weapon_explosion_scale weap with
    | some s =>
      { gs with explosions := gs.explosions ++ [⟨pos, s, gs.frame_time, weap == Weapon.Bfg⟩] }
    | none => gs
  let gs2 := if weap = Weapon.Gm then { gs1 with guided_missile := none } else gs1
  (gs2, to_remove ++ [entity])

/-- The inner vehicle loop of the `projectiles` system, over the
pre-snapshotted list of non-destroyed vehicles: the proximity check skips
the owner, kills the first vehicle within the fixed radius and stops
(`break`), and for `Bfg` also applies beam kills along the way.  Returns
the updated `gs`, removal list, kill list, and whether a direct hit ended
the loop. -/
def prox_loop (cvars : Cvars) (map_cb : Vec2f → Vec2f → Option Vec2f)
    (proj_id : ℕ) (weap : Weapon) (proj_pos : Vec2f) (owner : ℕ) :
    GsFx → List ℕ → List ℕ → List (ℕ × Vec2f) → GsFx × List ℕ × List ℕ × Bool
  | gs, to_remove, to_kill, [] => (gs, to_remove, to_kill, false)
  | gs, to_remove, to_kill, (vid, vpos) :: rest =>
    if vid ≠ owner then
      if (proj_pos - vpos).magnitude_squared ≤ 24 * 24 then
        let gs1 := { gs with explosions :=
          gs.explosions ++ [⟨vpos, 1, gs.frame_time, false⟩] }
        let rp := remove_projectile cvars gs1 to_remove proj_id weap proj_pos
        (rp.1, rp.2, to_kill ++ [vid], true)
      else if weap = Weapon.Bfg
          ∧ (proj_pos - vpos).magnitude_squared
              ≤ cvars.g_bfg_beam_range * cvars.g_bfg_beam_range
          ∧ (map_cb proj_pos vpos).isNone = true then
        let gs1 := { gs with
          explosions := gs.explosions ++ [⟨vpos, 1, gs.frame_time, false⟩],
          bfg_beams := gs.bfg_beams ++ [(proj_pos, vpos)] }
        prox_loop cvars map_cb proj_id weap proj_pos owner gs1 to_remove
          (to_kill ++ [vid]) rest
      else prox_loop cvars map_cb proj_id weap proj_pos owner gs to_remove to_kill rest
    else prox_loop cvars map_cb proj_id weap proj_pos owner gs to_remove to_kill rest

/-- The body of the `projectiles` loop for one projectile: integrate the
position; cluster bombs move without collision checks; otherwise swept map
collision (removal at the hit point) and then the vehicle proximity loop.
Returns the committed position, updated `gs`, removal list and kill list. -/
def projectile_one (cvars : Cvars) (map_cb : Vec2f → Vec2f → Option Vec2f)
    (dt : ℝ) (vehicles : List (ℕ × Vec2f)) (gs : GsFx) (to_remove to_kill : List ℕ)
    (proj_id : ℕ) (weap : Weapon) (ppos pvel : Vec2f) (owner : ℕ) :
    Vec2f × GsFx × List ℕ × List ℕ :=
  let new_pos := ppos + dt • pvel
  if weap = Weapon.Cb then (new_pos, gs, to_remove, to_kill)
  else match map_cb ppos new_pos with
  | some col_pos =>
    let rp := remove_projectile cvars gs to_remove proj_id weap col_pos
    (ppos, rp.1, rp.2, to_kill)
  | none =>
    let r := prox_loop cvars map_cb proj_id weap new_pos owner gs to_remove to_kill vehicles
    (new_pos, r.1, r.2.1, r.2.2.1)

/-- All-zero movement stats, used as a base for concrete scenarios. -/
def stats0 : MovementStats := ⟨0, 0, 0, 0, 0, 0, 0, 0, 0⟩

/-- Zero stats with `speed_max = 2`: a vehicle archetype with no input
acceleration and no friction. -/
def statsSM2 : MovementStats := { stats0 with speed_max := 2 }

/-- Zero stats with a negative `speed_max` (cvars are plain numeric
tunables; nothing in the code restricts their sign). -/
def statsNegSM : MovementStats := { stats0 with speed_max := -1 }

/-- A concrete cvar table for the scenarios below. -/
def cvarsX : Cvars where
  g_self_destruct_explosion1_scale := 0
  g_self_destruct_explosion2_scale := 0
  g_turret_turn_speed := 1
  g_vehicle_movement_stats := fun _ => statsSM2
  g_weapon_movement_stats := stats0
  g_weapon_reload_ammo := fun _ => 6
  g_weapon_refire := fun _ => 5
  g_weapon_reload_time := fun _ => 10
  g_hardpoint := fun _ _ => (Hardpoint.Chassis, 0)
  g_vehicle_turret_offset_chassis := fun _ => 0
  g_machine_gun_angle_spread := 0
  g_machine_gun_speed := 0
  g_machine_gun_vehicle_velocity_factor := 0
  g_cluster_bomb_count := 3
  g_cluster_bomb_speed := 0
  g_cluster_bomb_speed_spread_gaussian := false
  g_cluster_bomb_speed_spread_forward := 0
  g_cluster_bomb_speed_spread_sideways := 0
  g_cluster_bomb_vehicle_velocity_factor := 0
  g_cluster_bomb_time := 50
  g_cluster_bomb_time_spread := 2
  g_rockets_speed := 0
  g_rockets_vehicle_velocity_factor := 0
  g_homing_missile_speed_initial := 0
  g_homing_missile_vehicle_velocity_factor := 0
  g_guided_missile_speed_initial := 0
  g_guided_missile_vehicle_velocity_factor := 0
  g_bfg_speed := 0
  g_bfg_vehicle_velocity_factor := 0
  g_bfg_beam_range := 0
  g_weapon_explosion_scale := fun _ => none

/-- A shooting context: frame time 0, fire held, entity 0 is the player. -/
def ctxF : ShootCtx := ⟨0, true, 0⟩

/-- Empty mutable shooting state. -/
def ms0 : ShootMut := ⟨[], none, 0, 0⟩

/-- The all-zeros rng stream. -/
def rng0 : ℕ → ℝ := fun _ => 0

/-- A non-player vehicle (it will get id 1) with the guided missile
selected and loaded with 2 rounds ready since time 0. -/
def vGm : VehFull := ⟨false, 0, Weapon.Gm, 0, fun _ => Ammo.Loaded 0 2⟩

/-- A destroyed vehicle at the origin moving right with unit speed. -/
def vDestroyed : MovVeh := ⟨true, 0, ⟨0, 0⟩, ⟨1, 0⟩, 0, 0, EMPTY_INPUT⟩

/-- A live vehicle with rockets selected, one round loaded and ready. -/
def vRockets : VehFull := ⟨false, 0, Weapon.Rockets, 0, fun _ => Ammo.Loaded 0 1⟩

/-- A live vehicle with the cluster bomb selected, five rounds ready. -/
def vCb : VehFull := ⟨false, 0, Weapon.Cb, 0, fun _ => Ammo.Loaded 0 5⟩

/-- Input with only `turret_left` held. -/
def inL : Input := { EMPTY_INPUT with turret_left := true }

/-- A projectile-side game state tracking entity 2 as the guided missile. -/
def gsTrack2 : GsFx := ⟨[], [], some 2, 0⟩

/-- A projectile-side game state tracking nothing. -/
def gsFx0 : GsFx := ⟨[], [], none, 0⟩

end

@[simp] theorem Vec2f.add_x (a b : Vec2f) : (a + b).x = a.x + b.x := rfl

@[simp] theorem Vec2f.add_y (a b : Vec2f) : (a + b).y = a.y + b.y := rfl

@[simp] theorem Vec2f.sub_x (a b : Vec2f) : (a - b).x = a.x - b.x := rfl

@[simp] theorem Vec2f.sub_y (a b : Vec2f) : (a - b).y = a.y - b.y := rfl

@[simp] theorem Vec2f.smul_x (c : ℝ) (a : Vec2f) : (c • a).x = c * a.x := rfl

@[simp] theorem Vec2f.smul_y (c : ℝ) (a : Vec2f) : (c • a).y = c * a.y := rfl

@[simp] theorem Vec2f.zero_x : (0 : Vec2f).x = 0 := rfl

@[simp] theorem Vec2f.zero_y : (0 : Vec2f).y = 0 := rfl

theorem Vec2f.magnitude_squared_nonneg (v : Vec2f) : 0 ≤ v.magnitude_squared :=
  add_nonneg (sq_nonneg _) (sq_nonneg _)

theorem Vec2f.magnitude_nonneg (v : Vec2f) : 0 ≤ v.magnitude := Real.sqrt_nonneg _

theorem Vec2f.sq_magnitude (v : Vec2f) : v.magnitude ^ 2 = v.magnitude_squared :=
  Real.sq_sqrt v.magnitude_squared_nonneg

theorem Vec2f.magnitude_squared_eq_zero (v : Vec2f) :
    v.magnitude_squared = 0 ↔ v = 0 := by
  constructor
  · intro h
    rw [Vec2f.magnitude_squared] at h
    have hx : v.x = 0 := by nlinarith [sq_nonneg v.x, sq_nonneg v.y]
    have hy : v.y = 0 := by nlinarith [sq_nonneg v.x, sq_nonneg v.y]
    ext <;> simp [hx, hy]
  · intro h
    rw [h]
    simp [Vec2f.magnitude_squared]

theorem Vec2f.magnitude_eq_zero (v : Vec2f) : v.magnitude = 0 ↔ v = 0 := by
  rw [Vec2f.magnitude, Real.sqrt_eq_zero v.magnitude_squared_nonneg]
  exact v.magnitude_squared_eq_zero

theorem Vec2f.magnitude_pos (v : Vec2f) (h : v ≠ 0) : 0 < v.magnitude :=
  lt_of_le_of_ne v.magnitude_nonneg
    (fun e => h ((v.magnitude_eq_zero).1 e.symm))

theorem Vec2f.smul_assoc_mul (a b : ℝ) (v : Vec2f) : a • b • v = (a * b) • v := by
  ext <;> simp [mul_assoc]

theorem Vec2f.magnitude_smul (c : ℝ) (v : Vec2f) :
    (c • v).magnitude = |c| * v.magnitude := by
  rw [Vec2f.magnitude, Vec2f.magnitude, Vec2f.magnitude_squared, Vec2f.magnitude_squared]
  rw [show (c • v).x ^ 2 + (c • v).y ^ 2 = c ^ 2 * (v.x ^ 2 + v.y ^ 2) by
    simp only [Vec2f.smul_x, Vec2f.smul_y]; ring]
  rw [Real.sqrt_mul (sq_nonneg c), Real.sqrt_sq_eq_abs]

theorem Vec2f.one_smul_eq (v : Vec2f) : (1 : ℝ) • v = v := by ext <;> simp

theorem Vec2f.smul_zero_eq (c : ℝ) : c • (0 : Vec2f) = 0 := by ext <;> simp

theorem Vec2f.zero_smul_eq (v : Vec2f) : (0 : ℝ) • v = 0 := by ext <;> simp

theorem remEuclid_nonneg_lt (a b : ℝ) (hb : 0 < b) :
    0 ≤ remEuclid a b ∧ remEuclid a b < b := by
  have hbne : b ≠ 0 := ne_of_gt hb
  have h : remEuclid a b = b * Int.fract (a / b) := by
    rw [remEuclid, Int.fract]
    field_simp
  refine ⟨?_, ?_⟩
  · rw [h]
    exact mul_nonneg hb.le (Int.fract_nonneg _)
  · rw [h]
    calc b * Int.fract (a / b) < b * 1 := by
          exact (mul_lt_mul_left hb).2 (Int.fract_lt_one _)
      _ = b := mul_one b

/-- Claim C4 counterexample: `remove_projectile` on a guided-missile
projectile (entity 1) while `gs.guided_missile` tracks a different entity
(entity 2) clears the reference instead of leaving it unchanged. -/
theorem C4_counterexample :
    (remove_projectile cvarsX gsTrack2 [] 1 Weapon.Gm 0).1.guided_missile = none ∧
    gsTrack2.guided_missile = some 2 ∧ (1 : ℕ) ≠ 2 := by
  refine ⟨?_, rfl, by decide⟩
  simp [remove_projectile, cvarsX]

/-- Claim C4 (amended): the shared removal procedure clears
`GameState.guided_missile` exactly when the removed projectile's weapon tag
is `Gm` — it does not compare the removed entity against the tracked one.
In particular, under the invariant that the tracked entity (if it is the
one being removed) carries the `Gm` tag, the reference never points at the
removed entity afterwards; but removing a non-tracked `Gm` projectile also
clears the reference. -/
theorem C4_remove_projectile_clears_iff_gm (cvars : Cvars) (gs : GsFx)
    (to_remove : List ℕ) (entity : ℕ) (weap : Weapon) (pos : Vec2f) :
    ((remove_projectile cvars gs to_remove entity weap pos).1.guided_missile
      = if weap = Weapon.Gm then none else gs.guided_missile) ∧
    (remove_projectile cvars gs to_remove entity weap pos).2 = to_remove ++ [entity] ∧
    ((gs.guided_missile = some entity → weap = Weapon.Gm) →
      (remove_projectile cvars gs to_remove entity weap pos).1.guided_missile
        ≠ some entity) := by
  have h1 : (remove_projectile cvars gs to_remove entity weap pos).1.guided_missile
      = if weap = Weapon.Gm then none else gs.guided_missile := by
    rw [remove_projectile]
    rcases cvars.g_weapon_explosion_scale weap with _ | s <;>
      by_cases hw : weap = Weapon.Gm <;> simp [hw]
  refine ⟨h1, rfl, ?_⟩
  · intro hinv
    rw [h1]
    by_cases hw : weap = Weapon.Gm
    · simp [hw]
    · simp only [if_neg hw]
      intro hc
      exact hw (hinv hc)

/-- Claim C4 witness: the amended theorem applied at a concrete removal of
a non-`Gm` projectile with nothing tracked. -/
theorem C4_witness :
    (remove_projectile cvarsX gsFx0 [] 3 Weapon.Mg 0).1.guided_missile ≠ some 3 := by
  have h := C4_remove_projectile_clears_iff_gm cvarsX gsFx0 [] 3 Weapon.Mg 0
  exact h.2.2 (fun hc => absurd hc (by simp [gsFx0]))

/-- Claim C9 (amended): for a non-BFG projectile, the proximity pass skips
the owner and kills exactly the FIRST vehicle in snapshot order whose
squared distance is within the fixed radius — not necessarily the nearest
one; at most one vehicle is added to the kill list. -/
theorem C9_prox_kills_first_non_owner (cvars : Cvars)
    (map_cb : Vec2f → Vec2f → Option Vec2f) (proj_id : ℕ) (weap : Weapon)
    (ppos : Vec2f) (owner : ℕ) (hw : weap ≠ Weapon.Bfg) :
    ∀ (vehs : List (ℕ × Vec2f)) (gs : GsFx) (to_remove to_kill : List ℕ),
      (prox_loop cvars map_cb proj_id weap ppos owner gs to_remove to_kill vehs).2.2.1
        = to_kill ++ (match vehs.find? (fun e =>
            decide (e.1 ≠ owner)
              && decide ((ppos - e.2).magnitude_squared ≤ 24 * 24)) with
          | some e => [e.1]
          | none => []) ∧
      ∀ k ∈ (prox_loop cvars map_cb proj_id weap ppos owner gs to_remove to_kill
          vehs).2.2.1, k ∈ to_kill ∨ k ≠ owner := by
  intro vehs
  induction vehs with
  | nil =>
    intro gs tr tk
    constructor
    · simp [prox_loop, List.find?]
    · intro k hk
      simp [prox_loop] at hk
      exact Or.inl hk
  | cons hd tl ih =>
    intro gs tr tk
    obtain ⟨vid, vpos⟩ := hd
    by_cases h1 : vid = owner
    · have hstep : prox_loop cvars map_cb proj_id weap ppos owner gs tr tk
          ((vid, vpos) :: tl)
          = prox_loop cvars map_cb proj_id weap ppos owner gs tr tk tl := by
        rw [prox_loop]
        simp [h1]
      rw [hstep]
      have hfind : ((vid, vpos) :: tl).find? (fun e =>
          decide (e.1 ≠ owner)
            && decide ((ppos - e.2).magnitude_squared ≤ 24 * 24))
          = tl.find? (fun e =>
            decide (e.1 ≠ owner)
              && decide ((ppos - e.2).magnitude_squared ≤ 24 * 24)) := by
        rw [List.find?]
        simp [h1]
      rw [hfind]
      exact ih gs tr tk
    · by_cases h2 : (ppos - vpos).magnitude_squared ≤ 24 * 24
      · have hstep : (prox_loop cvars map_cb proj_id weap ppos owner gs tr tk
            ((vid, vpos) :: tl)).2.2.1 = tk ++ [vid] := by
          rw [prox_loop]
          simp [h1, h2]
        have hfind : ((vid, vpos) :: tl).find? (fun e =>
            decide (e.1 ≠ owner)
              && decide ((ppos - e.2).magnitude_squared ≤ 24 * 24))
            = some (vid, vpos) := by
          rw [List.find?]
          simp [h1, h2]
        rw [hstep, hfind]
        refine ⟨rfl, ?_⟩
        intro k hk
        rcases List.mem_append.1 hk with h | h
        · exact Or.inl h
        · simp at h
          subst h
          exact Or.inr h1
      · have hstep : prox_loop cvars map_cb proj_id weap ppos owner gs tr tk
            ((vid, vpos) :: tl)
            = prox_loop cvars map_cb proj_id weap ppos owner gs tr tk tl := by
          rw [prox_loop]
          simp [h1, h2, hw]
        have hfind : ((vid, vpos) :: tl).find? (fun e =>
            decide (e.1 ≠ owner)
              && decide ((ppos - e.2).magnitude_squared ≤ 24 * 24))
            = tl.find? (fun e =>
              decide (e.1 ≠ owner)
                && decide ((ppos - e.2).magnitude_squared ≤ 24 * 24)) := by
          rw [List.find?]
          simp [h2]
        rw [hstep, hfind]
        exact ih gs tr tk

/-- Claim C9 witness: the amended theorem applied to a concrete snapshot in
which the second vehicle is the only one in radius. -/
theorem C9_witness :
    (prox_loop cvarsX (fun _ _ => none) 7 Weapon.Rockets ⟨0, 0⟩ 0 gsFx0 [] []
        [(0, ⟨0, 0⟩), (2, ⟨10, 0⟩)]).2.2.1 = [2] := by
  have h := C9_prox_kills_first_non_owner cvarsX (fun _ _ => none) 7 Weapon.Rockets
    ⟨0, 0⟩ 0 (by decide) [(0, ⟨0, 0⟩), (2, ⟨10, 0⟩)] gsFx0 [] []
  rw [h.1]
  rw [show ([(0, ⟨0, 0⟩), (2, ⟨10, 0⟩)] : List (ℕ × Vec2f)).find? (fun e =>
      decide (e.1 ≠ 0)
        && decide (((⟨0, 0⟩ : Vec2f) - e.2).magnitude_squared ≤ 24 * 24))
      = some (2, ⟨10, 0⟩) by
    rw [List.find?, List.find?]
    norm_num [Vec2f.magnitude_squared]]
  rfl

/-- Claim C9 counterexample: two non-owner vehicles (ids 1 at distance 20
and 2 at distance 10) are both inside the proximity radius of a rockets
projectile at the origin; the projectile pass kills vehicle 1 — the first
in snapshot order — even though vehicle 2 is strictly nearer. -/
theorem C9_counterexample :
    (projectile_one cvarsX (fun _ _ => none) 0 [(1, ⟨20, 0⟩), (2, ⟨10, 0⟩)]
        gsFx0 [] [] 7 Weapon.Rockets ⟨0, 0⟩ ⟨0, 0⟩ 0).2.2.2 = [1] ∧
    ((⟨0, 0⟩ : Vec2f) - ⟨20, 0⟩).magnitude_squared ≤ 24 * 24 ∧
    ((⟨0, 0⟩ : Vec2f) - ⟨10, 0⟩).magnitude_squared
      < ((⟨0, 0⟩ : Vec2f) - ⟨20, 0⟩).magnitude_squared ∧
    (1 : ℕ) ≠ 2 := by
  refine ⟨?_, by norm_num [Vec2f.magnitude_squared],
    by norm_num [Vec2f.magnitude_squared], by decide⟩
  rw [projectile_one]
  norm_num [prox_loop, remove_projectile, Vec2f.magnitude_squared, cvarsX, gsFx0]
  simp

theorem shooting_one_vehicle (cvars : Cvars) (map_cb : Vec2f → Vec2f → Option Vec2f)
    (rng : ℕ → ℝ) (ctx : ShootCtx) (ms : ShootMut) (veh_id : ℕ) (v : VehFull)
    (veh_pos veh_vel : Vec2f) (veh_angle : ℝ) :
    (shooting_one cvars map_cb rng ctx ms veh_id v veh_pos veh_vel veh_angle).vehicle
      = shooting_vehicle_update cvars ctx v := by
  rcases v with ⟨d, vt, cw, ta, am⟩
  cases d
  · cases hf : ctx.fire
    · simp [shooting_one, shooting_vehicle_update, hf]
    · rcases ham : am cw with ⟨rt, cnt⟩ | ⟨s, e⟩
      · by_cases hrt : ctx.frame_time < rt
        · simp [shooting_one, shooting_vehicle_update, hf, ham, hrt]
        · cases cw <;>
            (simp [shooting_one, shooting_vehicle_update, hf, ham, hrt,
              apply_ite ShotResult.vehicle]
             try rfl
             try (cases map_cb _ _ <;> rfl))
      · simp [shooting_one, shooting_vehicle_update, hf, ham]
  · simp [shooting_one, shooting_vehicle_update]

theorem shooting_list_vehicles (cvars : Cvars) (map_cb : Vec2f → Vec2f → Option Vec2f)
    (rng : ℕ → ℝ) (ctx : ShootCtx) :
    ∀ (entries : List ShootEntry) (ms : ShootMut),
      (shooting_list cvars map_cb rng ctx ms entries).1
        = entries.map fun e => (e.id, shooting_vehicle_update cvars ctx e.veh) := by
  intro entries
  induction entries with
  | nil => intro ms; simp [shooting_list]
  | cons e tl ih => intro ms; simp [shooting_list, shooting_one_vehicle, ih]

theorem self_destruct_all_destroyed (cvars : Cvars) (frame_time : ℝ) :
    ∀ (vs : List (VehFull × Vec2f)) (ex : List Explosion),
      ∀ p ∈ (self_destruct_list cvars true frame_time vs ex).1, p.1.destroyed = true := by
  intro vs
  induction vs with
  | nil =>
    intro ex p hp
    simp [self_destruct_list] at hp
  | cons hd tl ih =>
    intro ex p hp
    obtain ⟨v, pos⟩ := hd
    cases hd2 : v.destroyed
    · rw [self_destruct_list] at hp
      simp only [hd2, Bool.not_false, Bool.and_self, if_true] at hp
      rcases List.mem_cons.1 hp with h | h
      · rw [h]
      · exact ih _ p h
    · rw [self_destruct_list] at hp
      simp only [hd2, Bool.not_true, Bool.and_false, if_false] at hp
      rcases List.mem_cons.1 hp with h | h
      · rw [h]
        exact hd2
      · exact ih _ p h

/-- Claim C10: the firing, self-destruct and turret-rotation guards read the
single shared `gs.input` snapshot: (1) with the shared self-destruct flag
set, every vehicle in the store ends the step destroyed (each per-vehicle
trigger also appends its two explosions by construction of
`self_destruct_list`); (2) with the shared turret-left flag set (and
turret-right clear), every vehicle's turret rotates by `-turn_speed * dt`,
whatever its own `Input` component holds; (3) the vehicle update applied by
`shooting` is a function of the shared context and the vehicle alone
(independent of the per-entity inputs, the rng and the other vehicles), and
(4) with the shared fire flag set it consumes ammo on every non-destroyed
vehicle whose current weapon is loaded and ready. -/
theorem C10_shared_input_guards (cvars : Cvars) (frame_time dt : ℝ)
    (gsInput gsPrevInput : Input) (map_cb : Vec2f → Vec2f → Option Vec2f)
    (rng : ℕ → ℝ) (ctx : ShootCtx) :
    (∀ (vs : List (VehFull × Vec2f)) (ex : List Explosion),
      ∀ p ∈ (self_destruct_list cvars true frame_time vs ex).1,
        p.1.destroyed = true) ∧
    (gsInput.turret_left = true → gsInput.turret_right = false →
      ∀ (v : VehFull) (input : Input),
        (vehicle_logic_one cvars gsInput gsPrevInput frame_time dt v input).turret_angle
          = v.turret_angle - cvars.g_turret_turn_speed * dt) ∧
    (∀ (entries : List ShootEntry) (ms : ShootMut),
      (shooting_list cvars map_cb rng ctx ms entries).1
        = entries.map fun e => (e.id, shooting_vehicle_update cvars ctx e.veh)) ∧
    (ctx.fire = true → ∀ (v : VehFull) (rt : ℝ) (cnt : ℕ),
      v.destroyed = false → v.ammos v.cur_weapon = Ammo.Loaded rt cnt →
      ¬ ctx.frame_time < rt →
      (shooting_vehicle_update cvars ctx v).ammos v.cur_weapon
        = (if cnt - 1 = 0
           then Ammo.Reloading ctx.frame_time
             (ctx.frame_time + cvars.g_weapon_reload_time v.cur_weapon)
           else Ammo.Loaded (ctx.frame_time + cvars.g_weapon_refire v.cur_weapon)
             (cnt - 1))) := by
  refine ⟨self_destruct_all_destroyed cvars frame_time, ?_, ?_, ?_⟩
  · intro hL hR v input
    simp [vehicle_logic_one, hL, hR]
  · intro entries ms
    exact shooting_list_vehicles cvars map_cb rng ctx entries ms
  · intro hf v rt cnt hd ha hrt
    rw [shooting_vehicle_update]
    simp only [hd, hf, Bool.not_true, Bool.or_false, if_false, ha, if_neg hrt]
    exact Function.update_same _ _ _

/-- Claim C10 witness: the theorem applied at a concrete state — the
turret of a vehicle whose own input is neutral still turns left under the
shared turret-left flag. -/
theorem C10_witness :
    (vehicle_logic_one cvarsX inL EMPTY_INPUT 0 1 vRockets EMPTY_INPUT).turret_angle
      = vRockets.turret_angle - cvarsX.g_turret_turn_speed * 1 :=
  (C10_shared_input_guards cvarsX 0 1 inL EMPTY_INPUT (fun _ _ => none) rng0
    ctxF).2.1 rfl rfl vRockets EMPTY_INPUT

/-- Claim C1 (amended): a non-player vehicle attempting to fire the guided
missile (not destroyed, shared fire input active, ammo loaded and ready)
spawns no projectile and leaves every shared mutable field (including
`GameState.guided_missile`) and all its other components unchanged — but
its ammo entry is still consumed: `ready_time` is advanced by the refire
interval, the count is decremented, and a count of zero transitions the
ammo to `Reloading`. -/
theorem C1_gm_non_player_consumes_ammo (cvars : Cvars)
    (map_cb : Vec2f → Vec2f → Option Vec2f) (rng : ℕ → ℝ) (ctx : ShootCtx)
    (ms : ShootMut) (veh_id : ℕ) (v : VehFull) (veh_pos veh_vel : Vec2f)
    (veh_angle : ℝ) (rt : ℝ) (cnt : ℕ)
    (hid : veh_id ≠ ctx.player_entity) (hw : v.cur_weapon = Weapon.Gm)
    (hd : v.destroyed = false) (hf : ctx.fire = true)
    (ha : v.ammos v.cur_weapon = Ammo.Loaded rt cnt)
    (hrt : ¬ ctx.frame_time < rt) :
    shooting_one cvars map_cb rng ctx ms veh_id v veh_pos veh_vel veh_angle
      = ⟨{ v with ammos := (Function.update v.ammos Weapon.Gm
            (if cnt - 1 = 0
             then Ammo.Reloading ctx.frame_time
               (ctx.frame_time + cvars.g_weapon_reload_time Weapon.Gm)
             else Ammo.Loaded (ctx.frame_time + cvars.g_weapon_refire Weapon.Gm)
               (cnt - 1))) },
         [], ms⟩ := by
  rcases v with ⟨d, vt, cw, ta, am⟩
  simp only at hw hd ha
  subst hw
  subst hd
  rw [shooting_one]
  simp only [hf, Bool.not_true, Bool.or_false, if_false, ha, if_neg hrt, hid,
    ne_eq, not_false_iff, if_true]
  simp

/-- Claim C1 counterexample: vehicle 1 (the player is entity 0) fires the
loaded guided missile; no projectile is spawned and the shared state is
untouched, but the vehicle's `Gm` ammo entry changed from `Loaded(0, 2)` to
`Loaded(5, 1)` — so "no state change" is false. -/
theorem C1_counterexample :
    (shooting_one cvarsX (fun _ _ => none) rng0 ctxF ms0 1 vGm 0 0 0).spawned = [] ∧
    (shooting_one cvarsX (fun _ _ => none) rng0 ctxF ms0 1 vGm 0 0 0).ms = ms0 ∧
    (shooting_one cvarsX (fun _ _ => none) rng0 ctxF ms0 1 vGm 0 0 0).vehicle.ammos
        Weapon.Gm = Ammo.Loaded 5 1 ∧
    vGm.ammos Weapon.Gm = Ammo.Loaded 0 2 ∧
    Ammo.Loaded (5 : ℝ) 1 ≠ Ammo.Loaded (0 : ℝ) 2 := by
  have hstep : shooting_one cvarsX (fun _ _ => none) rng0 ctxF ms0 1 vGm 0 0 0
      = ⟨{ vGm with ammos := (Function.update vGm.ammos Weapon.Gm
            (Ammo.Loaded 5 1)) },
         [], ms0⟩ := by
    rw [shooting_one]
    norm_num [vGm, ctxF, cvarsX]
  refine ⟨by rw [hstep], by rw [hstep], ?_, rfl, by simp⟩
  rw [hstep]
  simp [Function.update_same]

/-- Claim C1 witness: the amended theorem instantiated for non-player
vehicle 2 with two guided-missile rounds loaded. -/
theorem C1_witness :
    shooting_one cvarsX (fun _ _ => none) rng0 ctxF ms0 2 vGm 0 0 0
      = ⟨{ vGm with ammos := (Function.update vGm.ammos Weapon.Gm
            (if 2 - 1 = 0
             then Ammo.Reloading ctxF.frame_time
               (ctxF.frame_time + cvarsX.g_weapon_reload_time Weapon.Gm)
             else Ammo.Loaded (ctxF.frame_time + cvarsX.g_weapon_refire Weapon.Gm)
               (2 - 1))) },
         [], ms0⟩ :=
  C1_gm_non_player_consumes_ammo cvarsX (fun _ _ => none) rng0 ctxF ms0 2 vGm
    0 0 0 0 2 (by decide) rfl rfl rfl rfl (by norm_num [ctxF])

/-- Claim C5: a non-destroyed vehicle whose current weapon's ammo is
`Loaded(ready_time, 1)`, firing at `frame_time == ready_time`, fires
exactly once — the ammo transitions to
`Reloading(frame_time, frame_time + reload_time)`, and a repeated shooting
step on the result leaves the vehicle unchanged — and a later
`vehicle_logic` step at or past the reloading end timestamp (with no
weapon-switch edge) transitions the ammo back to `Loaded` with the weapon's
full reload count. -/
theorem C5_ammo_round_trip (cvars : Cvars) (map_cb : Vec2f → Vec2f → Option Vec2f)
    (rng : ℕ → ℝ) (ctx : ShootCtx) (ms : ShootMut) (veh_id : ℕ) (v : VehFull)
    (veh_pos veh_vel : Vec2f) (veh_angle : ℝ)
    (hd : v.destroyed = false) (hf : ctx.fire = true)
    (ha : v.ammos v.cur_weapon = Ammo.Loaded ctx.frame_time 1) :
    ((shooting_one cvars map_cb rng ctx ms veh_id v veh_pos veh_vel
        veh_angle).vehicle.ammos v.cur_weapon
      = Ammo.Reloading ctx.frame_time
          (ctx.frame_time + cvars.g_weapon_reload_time v.cur_weapon)) ∧
    (∀ (ctx2 : ShootCtx) (ms2 : ShootMut) (id2 : ℕ) (p2 v2 : Vec2f) (a2 : ℝ),
      (shooting_one cvars map_cb rng ctx2 ms2 id2
          (shooting_one cvars map_cb rng ctx ms veh_id v veh_pos veh_vel
            veh_angle).vehicle p2 v2 a2).vehicle
        = (shooting_one cvars map_cb rng ctx ms veh_id v veh_pos veh_vel
            veh_angle).vehicle) ∧
    (∀ (ft2 dt : ℝ) (gsIn gsPrev input : Input),
      ctx.frame_time + cvars.g_weapon_reload_time v.cur_weapon ≤ ft2 →
      input.prev_weapon = false → input.next_weapon = false →
      (vehicle_logic_one cvars gsIn gsPrev ft2 dt
          (shooting_one cvars map_cb rng ctx ms veh_id v veh_pos veh_vel
            veh_angle).vehicle input).ammos v.cur_weapon
        = Ammo.Loaded ft2 (cvars.g_weapon_reload_ammo v.cur_weapon)) := by
  have hveh : (shooting_one cvars map_cb rng ctx ms veh_id v veh_pos veh_vel
      veh_angle).vehicle
      = { v with ammos := (Function.update v.ammos v.cur_weapon
          (Ammo.Reloading ctx.frame_time
            (ctx.frame_time + cvars.g_weapon_reload_time v.cur_weapon))) } := by
    rw [shooting_one_vehicle, shooting_vehicle_update]
    simp [hd, hf, ha]
  refine ⟨?_, ?_, ?_⟩
  · rw [hveh]
    simp [Function.update_same]
  · intro ctx2 ms2 id2 p2 v2 a2
    rw [shooting_one_vehicle, shooting_vehicle_update, hveh]
    simp [Function.update_same]
  · intro ft2 dt gsIn gsPrev input hle hp hn
    rcases input with ⟨f2, sd2, tl2, trr2, pw2, nw2, rl2, ud2⟩
    simp only at hp hn
    subst hp
    subst hn
    rw [hveh, vehicle_logic_one]
    simp [hle, Function.update_same]

/-- Claim C5 witness: the round trip at frame time 0 with the rockets
archetype — the shot leaves `Reloading(0, 10)` and the logic step at time
10 restores `Loaded(10, 6)`. -/
theorem C5_witness :
    ((shooting_one cvarsX (fun _ _ => none) rng0 ctxF ms0 1 vRockets 0 0
        0).vehicle.ammos Weapon.Rockets
      = Ammo.Reloading 0 (0 + cvarsX.g_weapon_reload_time Weapon.Rockets)) ∧
    ((vehicle_logic_one cvarsX EMPTY_INPUT EMPTY_INPUT 10 1
        (shooting_one cvarsX (fun _ _ => none) rng0 ctxF ms0 1 vRockets 0 0
          0).vehicle EMPTY_INPUT).ammos Weapon.Rockets
      = Ammo.Loaded 10 (cvarsX.g_weapon_reload_ammo Weapon.Rockets)) := by
  have h := C5_ammo_round_trip cvarsX (fun _ _ => none) rng0 ctxF ms0 1 vRockets
    0 0 0 rfl rfl rfl
  exact ⟨h.1, h.2.2 10 1 EMPTY_INPUT EMPTY_INPUT EMPTY_INPUT
    (by norm_num [cvarsX, ctxF]) rfl rfl⟩

/-- Claim C3 (amended): the heading returned by the Kinematics `turning`
function is always normalized to `[0, 2π)`, for every input and every `dt`;
the turret angle, however, is NOT normalized — the `vehicle_logic` turret
update is a plain accumulation of `±turn_speed * dt`. -/
theorem C3_kinematics_angle_normalized (stats : MovementStats) (vel : Vec2f)
    (angle turn_rate : ℝ) (input : Input) (dt : ℝ) (cvars : Cvars)
    (gsInput gsPrevInput : Input) (frame_time dt2 : ℝ) (v : VehFull)
    (inp : Input) :
    (0 ≤ (turning stats vel angle turn_rate input dt).2.2 ∧
      (turning stats vel angle turn_rate input dt).2.2 < 2 * Real.pi) ∧
    (gsInput.turret_left = true → gsInput.turret_right = false →
      (vehicle_logic_one cvars gsInput gsPrevInput frame_time dt2 v inp).turret_angle
        = v.turret_angle - cvars.g_turret_turn_speed * dt2) := by
  constructor
  · rw [turning]
    exact remEuclid_nonneg_lt _ _ Real.two_pi_pos
  · intro hL hR
    simp [vehicle_logic_one, hL, hR]

/-- Claim C3 counterexample: one `vehicle_logic` step with the shared
turret-left input held, turn speed 1 and `dt = 1`, starting from turret
angle 0, leaves the turret angle at `-1`, which is not in `[0, 2π)`. -/
theorem C3_counterexample :
    (vehicle_logic_one cvarsX inL EMPTY_INPUT 0 1 vRockets EMPTY_INPUT).turret_angle
      = -1 ∧ ¬ (0 ≤ (-1 : ℝ)) := by
  constructor
  · simp [vehicle_logic_one, cvarsX, inL, EMPTY_INPUT, vRockets]
  · norm_num

/-- Claim C3 witness: the amended theorem applied at concrete inputs —
the normalized heading is non-negative and a concrete left turn
accumulates the turret angle without wrapping. -/
theorem C3_witness :
    0 ≤ (turning stats0 0 0 0 EMPTY_INPUT 1).2.2 ∧
    (vehicle_logic_one cvarsX inL EMPTY_INPUT 0 2 vCb EMPTY_INPUT).turret_angle
      = vCb.turret_angle - cvarsX.g_turret_turn_speed * 2 := by
  have h := C3_kinematics_angle_normalized stats0 0 0 0 EMPTY_INPUT 1 cvarsX inL
    EMPTY_INPUT 0 2 vCb EMPTY_INPUT
  exact ⟨h.1.1, h.2 rfl rfl⟩


/-- Claim C7: vehicle-movement collision rollback.  With
`t = turning(...)` the candidate heading is `t.2.2`; if any hitbox corner
at the candidate heading (current position) collides with the map, the
heading stays unchanged this tick and the (friction-updated) turn rate
`t.2.1` is multiplied by `-0.5`, else the candidate heading is committed.
With `v2 = accel_decel(...)` under the committed heading `a1`, if any
hitbox corner at the candidate position `pos + dt • v2` collides, the
position stays unchanged and the velocity is multiplied by `-0.5`, else
the candidate position is committed. -/
theorem C7_collision_rollback (stats : MovementStats) (collision : Vec2f → Bool)
    (corners : Vec2f → ℝ → List Vec2f) (dt : ℝ) (input : Input)
    (pos vel : Vec2f) (angle turn_rate : ℝ) :
    let t := turning stats vel angle turn_rate input dt
    let out := vehicle_movement_one stats collision corners dt input pos vel
      angle turn_rate
    let a1 := if (corners pos t.2.2).any collision then angle else t.2.2
    let v2 := accel_decel stats t.1 a1 input dt
    out.angle = a1 ∧
    ((corners pos t.2.2).any collision = true →
      out.angle = angle ∧ out.turn_rate = t.2.1 * (-0.5)) ∧
    ((corners pos t.2.2).any collision = false →
      out.angle = t.2.2 ∧ out.turn_rate = t.2.1) ∧
    ((corners (pos + dt • v2) a1).any collision = true →
      out.pos = pos ∧ out.vel = (-0.5 : ℝ) • v2) ∧
    ((corners (pos + dt • v2) a1).any collision = false →
      out.pos = pos + dt • v2 ∧ out.vel = v2) := by
  refine ⟨rfl, ?_, ?_, ?_, ?_⟩
  · intro h1
    rw [vehicle_movement_one]
    simp only [h1, if_true]
    refine ⟨?_, ?_⟩ <;> first | rfl | trivial
  · intro h1
    rw [vehicle_movement_one]
    simp only [h1, Bool.false_eq_true, if_false]
    refine ⟨?_, ?_⟩ <;> first | rfl | trivial
  · intro h2
    rw [vehicle_movement_one]
    simp only [h2, if_true]
    refine ⟨?_, ?_⟩ <;> first | rfl | trivial
  · intro h2
    rw [vehicle_movement_one]
    simp only [h2, Bool.false_eq_true, if_false]
    refine ⟨?_, ?_⟩ <;> first | rfl | trivial

/-- Claim C7 witness: with a map where every point collides and a one-corner
hitbox, the heading is rolled back and the turn rate is inverted and
halved. -/
theorem C7_witness :
    (vehicle_movement_one statsSM2 (fun _ => true) (fun _ _ => [0]) 1
        EMPTY_INPUT 0 0 0 0).angle = 0 ∧
    (vehicle_movement_one statsSM2 (fun _ => true) (fun _ _ => [0]) 1
        EMPTY_INPUT 0 0 0 0).turn_rate
      = (turning statsSM2 0 0 0 EMPTY_INPUT 1).2.1 * (-0.5) := by
  have h := C7_collision_rollback statsSM2 (fun _ => true) (fun _ _ => [0]) 1
    EMPTY_INPUT 0 0 0 0
  exact h.2.1 rfl

theorem cbLoop_length (cvars : Cvars) (rng : ℕ → ℝ) (ft sa : ℝ) (vv sp : Vec2f) :
    ∀ (n idx fresh : ℕ),
      ((cbLoop cvars rng ft sa vv sp idx fresh n).1).length = n := by
  intro n
  induction n with
  | zero => intro idx fresh; rw [cbLoop]; rfl
  | succ n ih =>
    intro idx fresh
    rw [cbLoop]
    simp [ih]

theorem cbLoop_times (cvars : Cvars) (rng : ℕ → ℝ) (ft sa : ℝ) (vv sp : Vec2f)
    (hspread : 0 ≤ cvars.g_cluster_bomb_time_spread) :
    ∀ (n idx fresh : ℕ),
      (∀ i, i < n → -1 ≤ rng (idx + 3 * i + 2) ∧ rng (idx + 3 * i + 2) < 1) →
      ∀ p ∈ (cbLoop cvars rng ft sa vv sp idx fresh n).1,
        ∃ (e : ℕ) (bp bv : Vec2f) (t : ℝ), p = (e, Spawned.cb bp bv t) ∧
          ft + cvars.g_cluster_bomb_time - cvars.g_cluster_bomb_time_spread ≤ t ∧
          t ≤ ft + cvars.g_cluster_bomb_time + cvars.g_cluster_bomb_time_spread := by
  intro n
  induction n with
  | zero =>
    intro idx fresh _ p hp
    rw [cbLoop] at hp
    simp at hp
  | succ n ih =>
    intro idx fresh hr p hp
    rw [cbLoop] at hp
    rcases List.mem_cons.1 hp with h | h
    · have h0 := hr 0 (Nat.succ_pos n)
      rw [show idx + 3 * 0 + 2 = idx + 2 by ring] at h0
      refine ⟨_, _, _, _, h, ?_, ?_⟩
      · have hlo : (-1) * cvars.g_cluster_bomb_time_spread
            ≤ rng (idx + 2) * cvars.g_cluster_bomb_time_spread :=
          mul_le_mul_of_nonneg_right h0.1 hspread
        linarith
      · have hhi : rng (idx + 2) * cvars.g_cluster_bomb_time_spread
            ≤ 1 * cvars.g_cluster_bomb_time_spread :=
          mul_le_mul_of_nonneg_right h0.2.le hspread
        linarith
    · refine ih (idx + 3) (fresh + 1) ?_ p h
      intro i hi
      have := hr (i + 1) (Nat.succ_lt_succ hi)
      rwa [show idx + 3 * (i + 1) + 2 = idx + 3 + 3 * i + 2 by ring] at this

/-- Claim C8: a cluster-bomb shot (vehicle not destroyed, fire active,
ammo loaded and ready) pushes exactly `g_cluster_bomb_count` projectile
entities, and — provided the time-spread cvar is non-negative and the rng
honours the `gen_range(-1.0, 1.0)` contract on the time draws — each one
carries an expiry timestamp in the closed interval
`[frame_time + base_time - time_spread, frame_time + base_time + time_spread]`. -/
theorem C8_cluster_bomb_spawns (cvars : Cvars)
    (map_cb : Vec2f → Vec2f → Option Vec2f) (rng : ℕ → ℝ) (ctx : ShootCtx)
    (ms : ShootMut) (veh_id : ℕ) (v : VehFull) (veh_pos veh_vel : Vec2f)
    (veh_angle : ℝ) (rt : ℝ) (cnt : ℕ)
    (hw : v.cur_weapon = Weapon.Cb) (hd : v.destroyed = false)
    (hf : ctx.fire = true) (ha : v.ammos v.cur_weapon = Ammo.Loaded rt cnt)
    (hrt : ¬ ctx.frame_time < rt)
    (hspread : 0 ≤ cvars.g_cluster_bomb_time_spread)
    (hr : ∀ i, -1 ≤ rng (ms.rngIdx + 3 * i + 2) ∧ rng (ms.rngIdx + 3 * i + 2) < 1) :
    ((shooting_one cvars map_cb rng ctx ms veh_id v veh_pos veh_vel
        veh_angle).spawned.length = cvars.g_cluster_bomb_count) ∧
    ∀ p ∈ (shooting_one cvars map_cb rng ctx ms veh_id v veh_pos veh_vel
        veh_angle).spawned,
      ∃ (e : ℕ) (bp bv : Vec2f) (t : ℝ), p = (e, Spawned.cb bp bv t) ∧
        ctx.frame_time + cvars.g_cluster_bomb_time
            - cvars.g_cluster_bomb_time_spread ≤ t ∧
        t ≤ ctx.frame_time + cvars.g_cluster_bomb_time
            + cvars.g_cluster_bomb_time_spread := by
  have hsp : ∃ sa pos, (shooting_one cvars map_cb rng ctx ms veh_id v veh_pos
      veh_vel veh_angle).spawned
      = (cbLoop cvars rng ctx.frame_time sa veh_vel pos ms.rngIdx ms.fresh
          cvars.g_cluster_bomb_count).1 := by
    rcases v with ⟨d, vt, cw, ta, am⟩
    simp only at hw hd ha
    subst hw
    subst hd
    rw [shooting_one]
    simp only [hf, Bool.not_true, Bool.or_false, if_false, ha, if_neg hrt]
    rcases hhp : (cvars.g_hardpoint vt Weapon.Cb).1 with _ | _ <;>
      simp [hhp] <;> exact ⟨_, _, rfl⟩
  rcases hsp with ⟨sa, pos, hsp⟩
  rw [hsp]
  constructor
  · exact cbLoop_length cvars rng ctx.frame_time sa veh_vel pos
      cvars.g_cluster_bomb_count ms.rngIdx ms.fresh
  · exact cbLoop_times cvars rng ctx.frame_time sa veh_vel pos hspread
      cvars.g_cluster_bomb_count ms.rngIdx ms.fresh (fun i _ => hr i)

/-- Claim C8 witness: with `g_cluster_bomb_count = 3` the shot pushes
exactly three sub-munitions. -/
theorem C8_witness :
    (shooting_one cvarsX (fun _ _ => none) rng0 ctxF ms0 1 vCb 0 0
        0).spawned.length = cvarsX.g_cluster_bomb_count :=
  (C8_cluster_bomb_spawns cvarsX (fun _ _ => none) rng0 ctxF ms0 1 vCb 0 0 0 0 5
    rfl rfl rfl rfl (by norm_num [ctxF]) (by norm_num [cvarsX])
    (fun i => by norm_num [rng0])).1

theorem magnitude_unit_x : (⟨1, 0⟩ : Vec2f).magnitude = 1 := by
  rw [Vec2f.magnitude, Vec2f.magnitude_squared]
  norm_num

theorem turning_inert_eval :
    turning statsSM2 ⟨1, 0⟩ 0 0 EMPTY_INPUT 1 = (⟨1, 0⟩, 0, 0) := by
  rw [turning]
  norm_num [statsSM2, stats0, EMPTY_INPUT, clampR, remEuclid, Vec2f.rotated_z,
    Real.cos_zero, Real.sin_zero]

theorem accel_decel_inert_eval :
    accel_decel statsSM2 ⟨1, 0⟩ 0 EMPTY_INPUT 1 = ⟨1, 0⟩ := by
  have h1 : ad_vel1 statsSM2 ⟨1, 0⟩ 0 EMPTY_INPUT 1 = ⟨1, 0⟩ := by
    rw [ad_vel1]
    ext <;> simp [statsSM2, stats0, EMPTY_INPUT, toVec2f]
  have hn : ad_norm statsSM2 ⟨1, 0⟩ 0 EMPTY_INPUT 1 = ⟨1, 0⟩ := by
    rw [ad_norm, h1, Vec2f.try_normalized_or_zero, magnitude_unit_x]
    norm_num
    ext <;> simp
  have h2 : ad_vel2 statsSM2 ⟨1, 0⟩ 0 EMPTY_INPUT 1 = ⟨1, 0⟩ := by
    rw [ad_vel2, h1, hn, magnitude_unit_x]
    norm_num [statsSM2, stats0]
    ext <;> simp
  have h3 : ad_vel3 statsSM2 ⟨1, 0⟩ 0 EMPTY_INPUT 1 = ⟨1, 0⟩ := by
    rw [ad_vel3, h2]
    norm_num [statsSM2, stats0]
    ext <;> simp
  rw [accel_decel, h3]
  rw [if_neg]
  norm_num [Vec2f.magnitude_squared, statsSM2, stats0]

/-- Claim C2 counterexample: a destroyed vehicle at the origin with
velocity `(1, 0)` on a collision-free map is moved to `(1, 0)` by the
vehicle-movement step — the system has no `destroyed` guard. -/
theorem C2_counterexample :
    vDestroyed.destroyed = true ∧ vDestroyed.pos = ⟨0, 0⟩ ∧
    (vehicle_movement cvarsX (fun _ => false) (fun _ _ => []) 1
        [vDestroyed]).map MovVeh.pos = [⟨1, 0⟩] ∧
    (⟨1, 0⟩ : Vec2f) ≠ (⟨0, 0⟩ : Vec2f) := by
  refine ⟨rfl, rfl, ?_, by simp⟩
  have hone : vehicle_movement_one statsSM2 (fun _ => false) (fun _ _ => []) 1
      EMPTY_INPUT ⟨0, 0⟩ ⟨1, 0⟩ 0 0 = ⟨⟨1, 0⟩, ⟨1, 0⟩, 0, 0⟩ := by
    rw [vehicle_movement_one, turning_inert_eval]
    norm_num [accel_decel_inert_eval]
    ext <;> simp
  simp only [vehicle_movement, vehicle_movement_apply, List.map_cons,
    List.map_nil, vDestroyed, cvarsX]
  rw [hone]

/-- Claim C2 (amended): the vehicle-movement step does NOT exclude
destroyed vehicles — it never reads the `destroyed` flag, so a destroyed
vehicle's position, velocity, angle and turn rate are updated exactly as a
live vehicle's would be (and the flag itself is preserved). -/
theorem C2_movement_ignores_destroyed (cvars : Cvars)
    (collision : Vec2f → Bool) (corners : Vec2f → ℝ → List Vec2f) (dt : ℝ)
    (v : MovVeh) (b : Bool) :
    vehicle_movement_apply cvars collision corners dt { v with destroyed := b }
      = { vehicle_movement_apply cvars collision corners dt v with destroyed := b } := by
  rfl

theorem Vec2f.magnitude_zero : (0 : Vec2f).magnitude = 0 :=
  (Vec2f.magnitude_eq_zero 0).2 rfl

theorem Vec2f.try_normalized_of_ne (v : Vec2f) (h : v ≠ 0) :
    v.try_normalized_or_zero = (1 / v.magnitude) • v := by
  rw [Vec2f.try_normalized_or_zero, if_neg]
  intro hm
  exact h ((Vec2f.magnitude_eq_zero v).1 hm)

theorem Vec2f.magnitude_try_normalized_of_ne (v : Vec2f) (h : v ≠ 0) :
    v.try_normalized_or_zero.magnitude = 1 := by
  rw [Vec2f.try_normalized_of_ne v h, Vec2f.magnitude_smul]
  have hm : 0 < v.magnitude := v.magnitude_pos h
  rw [abs_of_nonneg (by positivity)]
  field_simp

theorem Vec2f.magnitude_try_normalized_le (v : Vec2f) :
    v.try_normalized_or_zero.magnitude ≤ 1 := by
  by_cases h : v = 0
  · rw [h, show (0 : Vec2f).try_normalized_or_zero = 0 by
      rw [Vec2f.try_normalized_or_zero, if_pos Vec2f.magnitude_zero]]
    rw [Vec2f.magnitude_zero]
    norm_num
  · rw [Vec2f.magnitude_try_normalized_of_ne v h]

theorem ad_vel1_zero_of (stats : MovementStats) (vel : Vec2f) (angle : ℝ)
    (input : Input) (dt : ℝ)
    (h : ad_vel1 stats vel angle input dt = 0) :
    ad_vel3 stats vel angle input dt = 0 := by
  rw [ad_vel3, ad_vel2, ad_norm, h]
  rw [show (0 : Vec2f).try_normalized_or_zero = 0 by
    rw [Vec2f.try_normalized_or_zero, if_pos Vec2f.magnitude_zero]]
  ext <;> simp

/-- Claim C6 (amended): for every starting velocity, input and `dt`, and
any movement stats with a NON-NEGATIVE `speed_max`, the speed produced by
the `accel_decel` step never exceeds `speed_max`; when the cap branch
fires the magnitude is exactly `speed_max`, and — provided additionally
`friction_linear ≤ 1` and `speed_max > 0` — the result is a positive
multiple of the pre-cap velocity, i.e. the direction is preserved.  (For a
negative `speed_max` the claim fails; see the counterexample.) -/
theorem C6_speed_cap (stats : MovementStats) (vel : Vec2f) (angle : ℝ)
    (input : Input) (dt : ℝ) (hsm : 0 ≤ stats.speed_max) :
    (accel_decel stats vel angle input dt).magnitude ≤ stats.speed_max ∧
    ((ad_vel3 stats vel angle input dt).magnitude_squared > stats.speed_max ^ 2 →
      (accel_decel stats vel angle input dt).magnitude = stats.speed_max ∧
      (stats.friction_linear ≤ 1 → 0 < stats.speed_max →
        ∃ c : ℝ, 0 < c ∧ accel_decel stats vel angle input dt
          = c • ad_vel3 stats vel angle input dt)) := by
  by_cases hcap : (ad_vel3 stats vel angle input dt).magnitude_squared
      > stats.speed_max ^ 2
  · have hout : accel_decel stats vel angle input dt
        = stats.speed_max • ad_norm stats vel angle input dt := by
      rw [accel_decel, if_pos hcap]
    have hzero_ms : (0 : Vec2f).magnitude_squared = 0 := by
      simp [Vec2f.magnitude_squared]
    have hv1 : ad_vel1 stats vel angle input dt ≠ 0 := by
      intro h0
      have h3 := ad_vel1_zero_of stats vel angle input dt h0
      rw [h3, hzero_ms] at hcap
      nlinarith [sq_nonneg stats.speed_max]
    have hmag : (accel_decel stats vel angle input dt).magnitude
        = stats.speed_max := by
      rw [hout, Vec2f.magnitude_smul, ad_norm,
        Vec2f.magnitude_try_normalized_of_ne _ hv1, abs_of_nonneg hsm, mul_one]
    refine ⟨hmag.le, fun _ => ⟨hmag, ?_⟩⟩
    intro hfl hsmpos
    set m := (ad_vel1 stats vel angle input dt).magnitude with hm_def
    have hm : 0 < m := (ad_vel1 stats vel angle input dt).magnitude_pos hv1
    have hnorm_eq : ad_norm stats vel angle input dt
        = (1 / m) • ad_vel1 stats vel angle input dt := by
      rw [ad_norm, Vec2f.try_normalized_of_ne _ hv1]
    have hv2 : ad_vel2 stats vel angle input dt
        = (1 - min (stats.friction_const * dt) m / m) •
            ad_vel1 stats vel angle input dt := by
      rw [ad_vel2, hnorm_eq, Vec2f.smul_assoc_mul]
      ext <;> simp <;> ring
    set r := (1 - stats.friction_linear) ^ dt with hr_def
    set k := 1 - min (stats.friction_const * dt) m / m with hk_def
    have hv3 : ad_vel3 stats vel angle input dt
        = (r * k) • ad_vel1 stats vel angle input dt := by
      rw [ad_vel3, hv2, Vec2f.smul_assoc_mul]
    have hrpos : 0 ≤ r := Real.rpow_nonneg (by linarith) dt
    have hk : 0 ≤ k := by
      have hle : min (stats.friction_const * dt) m / m ≤ 1 := by
        rw [div_le_one hm]
        exact min_le_right _ _
      rw [hk_def]
      linarith
    have hv3ne : ad_vel3 stats vel angle input dt ≠ 0 := by
      intro h0
      rw [h0, hzero_ms] at hcap
      nlinarith [sq_nonneg stats.speed_max]
    have hane : r * k ≠ 0 := by
      intro h0
      apply hv3ne
      rw [hv3, h0]
      exact Vec2f.zero_smul_eq _
    have hapos : 0 < r * k := lt_of_le_of_ne (mul_nonneg hrpos hk) (Ne.symm hane)
    refine ⟨stats.speed_max / (m * (r * k)),
      div_pos hsmpos (mul_pos hm hapos), ?_⟩
    rw [hout, hnorm_eq, hv3, Vec2f.smul_assoc_mul, Vec2f.smul_assoc_mul]
    congr 1
    field_simp
    ring
  · have hout : accel_decel stats vel angle input dt
        = ad_vel3 stats vel angle input dt := by
      rw [accel_decel, if_neg hcap]
    refine ⟨?_, fun h => absurd h hcap⟩
    rw [hout, Vec2f.magnitude]
    calc Real.sqrt (ad_vel3 stats vel angle input dt).magnitude_squared
        ≤ Real.sqrt (stats.speed_max ^ 2) :=
          Real.sqrt_le_sqrt (le_of_not_gt hcap)
      _ = stats.speed_max := Real.sqrt_sq hsm

theorem magnitude_mk_x (x : ℝ) (hx : 0 ≤ x) : (⟨x, 0⟩ : Vec2f).magnitude = x := by
  rw [Vec2f.magnitude, Vec2f.magnitude_squared]
  norm_num
  rw [Real.sqrt_sq hx]

/-- Claim C6 counterexample: cvars are plain numeric tunables, and with
`speed_max = -1` (all other stats zero) the step on velocity `(2, 0)` with
`dt = 1` takes the cap branch and returns `(-1, 0)`: its speed is `1`,
which EXCEEDS the configured `speed_max`, and the direction of the pre-cap
velocity `(2, 0)` is reversed rather than preserved. -/
theorem C6_counterexample :
    accel_decel statsNegSM ⟨2, 0⟩ 0 EMPTY_INPUT 1 = ⟨-1, 0⟩ ∧
    ad_vel3 statsNegSM ⟨2, 0⟩ 0 EMPTY_INPUT 1 = ⟨2, 0⟩ ∧
    (⟨-1, 0⟩ : Vec2f).magnitude = 1 ∧
    statsNegSM.speed_max < (⟨-1, 0⟩ : Vec2f).magnitude := by
  have h1 : ad_vel1 statsNegSM ⟨2, 0⟩ 0 EMPTY_INPUT 1 = ⟨2, 0⟩ := by
    rw [ad_vel1]
    ext <;> simp [statsNegSM, stats0, EMPTY_INPUT, toVec2f]
  have hmag2 : (⟨2, 0⟩ : Vec2f).magnitude = 2 := magnitude_mk_x 2 (by norm_num)
  have hn : ad_norm statsNegSM ⟨2, 0⟩ 0 EMPTY_INPUT 1 = ⟨1, 0⟩ := by
    rw [ad_norm, h1, Vec2f.try_normalized_of_ne _ (by
      intro h
      have := congrArg Vec2f.x h
      norm_num at this), hmag2]
    ext <;> norm_num
  have h2 : ad_vel2 statsNegSM ⟨2, 0⟩ 0 EMPTY_INPUT 1 = ⟨2, 0⟩ := by
    rw [ad_vel2, h1, hn, hmag2]
    norm_num [statsNegSM, stats0]
    ext <;> simp
  have h3 : ad_vel3 statsNegSM ⟨2, 0⟩ 0 EMPTY_INPUT 1 = ⟨2, 0⟩ := by
    rw [ad_vel3, h2]
    norm_num [statsNegSM, stats0]
    ext <;> simp
  have hm1 : (⟨-1, 0⟩ : Vec2f).magnitude = 1 := by
    rw [Vec2f.magnitude, Vec2f.magnitude_squared]
    norm_num
  refine ⟨?_, h3, hm1, ?_⟩
  · rw [accel_decel, h3, if_pos (by norm_num [Vec2f.magnitude_squared,
      statsNegSM, stats0]), hn]
    ext <;> simp [statsNegSM, stats0]
  · rw [hm1]
    norm_num [statsNegSM, stats0]

/-- Claim C6 witness: the amended theorem applied at concrete stats with
`speed_max = 2`. -/
theorem C6_witness :
    (accel_decel statsSM2 ⟨1, 0⟩ 0 EMPTY_INPUT 1).magnitude
      ≤ statsSM2.speed_max :=
  (C6_speed_cap statsSM2 ⟨1, 0⟩ 0 EMPTY_INPUT 1
    (by norm_num [statsSM2, stats0])).1
